import Mathlib

/-!
Verification of the multi-pong repository: a shallow embedding of the
game engine (`src/game/engine.js`, first revision unless noted), the
connection manager's keepalive and inbound-data handling
(`src/network/connection.js`, second revision), the message router
(`src/app.js`) and the manual-signaling JSON codec.

Numeric JavaScript values are modelled over an arbitrary linear ordered
field `K` (instantiated at `ℚ` for executable witnesses and at `ℝ` where
`Math.sqrt` matters).  Each call to `Math.sqrt` is the explicit function
parameter `sqrtF`, and each `Math.random()` draw is an explicit input
(structure `RandIn`), so that every engine function is a pure function of
its inputs exactly mirroring the JavaScript control flow.
-/

namespace MultiPong

section Engine

variable {K : Type} [LinearOrderedField K]

/-- Game settings, the shape of `settings.json` (the file itself is not in
the repository, so all values stay symbolic) merged with the
`gameState.settings` subset copied by `createInitialGameState`. -/
structure GSettings (K : Type) where
  fieldWidth : K
  fieldHeight : K
  paddleWidth : K
  paddleHeight : K
  ballRadius : K
  initialBallSpeed : K
  ballSpeedIncrement : K
  maxBallSpeed : K
  winScore : Nat
deriving DecidableEq

/-- The ball record of `src/types/index.js`. -/
structure Ball (K : Type) where
  x : K
  y : K
  radius : K
  velocityX : K
  velocityY : K
  speed : K
deriving DecidableEq

/-- The paddle record of `src/types/index.js`. -/
structure Paddle (K : Type) where
  x : K
  y : K
  width : K
  height : K
deriving DecidableEq

/-- A player record: paddle plus score (`isHost` of the player record is
derivable from the engine's own `isHost` and is omitted). -/
structure Player (K : Type) where
  paddle : Paddle K
  score : Nat
deriving DecidableEq

/-- The mutable state of a `GameEngine` instance: its `gameState`
(ball, players, flags, settings) together with the engine fields
`isHost` and `lastUpdateTime`. -/
structure EngineState (K : Type) where
  isHost : Bool
  ball : Ball K
  localPlayer : Player K
  remotePlayer : Player K
  isPlaying : Bool
  isPaused : Bool
  settings : GSettings K
  lastUpdateTime : K
deriving DecidableEq

/-- Observable callbacks fired by the engine: `onScoreUpdate`,
`onBallOut(ball, true)` (a paddle return, used for effects) and
`onGameOver`. -/
inductive GameEvent where
  | scoreUpdate (localScore remoteScore : Nat)
  | ballReturn
  | gameOver (localWon : Bool)
deriving DecidableEq

/-- One tick's worth of `Math.random()` / `Math.cos` / `Math.sin` draws:
`collide1` and `collide2` are the values of `Math.random() * 2 - 1` used
by the two potential `handlePaddleCollision` calls of a tick (the one
reached from `updateBall` and the unconditional one in `update`);
`cosAngle`/`sinAngle` are `Math.cos(initialAngle)`/`Math.sin(initialAngle)`
for a serve, and `coinY`/`coinX` are the `Math.random() < 0.5` draws of
`initBallMovement`. -/
structure RandIn (K : Type) where
  collide1 : K
  collide2 : K
  cosAngle : K
  sinAngle : K
  coinY : Bool
  coinX : Bool
deriving DecidableEq

/-- Model of `GameEngine.isSourceOfTruth` (first revision, engine.js lines
458-473), with its two literal branches. -/
def isSourceOfTruth (s : EngineState K) : Bool :=
  if 0 < s.ball.velocityY ∧ s.isHost = true then true
  else if 0 < s.ball.velocityY ∧ s.isHost = false then true
  else false

/-- Model of `GameEngine.initBallMovement` (first revision): center the ball,
place it near the serving side, give it the drawn serve angle, enforce a
minimum 20% vertical fraction (recomputing the horizontal component by
`Math.sqrt`), and orient the vertical velocity by the serve direction. -/
def initBallMovement (sqrtF : K → K) (rng : RandIn K) (serveTowardsLocal : Bool)
    (s : EngineState K) : EngineState K :=
  let st := s.settings
  let bigS := st.initialBallSpeed
  let paddleOffset := st.paddleHeight * 3
  let bx := st.fieldWidth / 2
  let by_ := if serveTowardsLocal then paddleOffset else st.fieldHeight - paddleOffset
  let vX := bigS * rng.cosAngle
  let vY := bigS * rng.sinAngle
  let p : K × K :=
    if |vY| < bigS * (2 / 10) then
      let signY : K := if vY = 0 then (if rng.coinY then -1 else 1)
        else (if 0 < vY then 1 else -1)
      let vY2 := signY * bigS * (2 / 10)
      let signX : K := if vX = 0 then (if rng.coinX then -1 else 1)
        else (if 0 < vX then 1 else -1)
      (signX * sqrtF (bigS * bigS - vY2 * vY2), vY2)
    else (vX, vY)
  let vY3 := if serveTowardsLocal then |p.2| else -|p.2|
  { s with ball := { s.ball with
      x := bx
      y := by_
      velocityX := p.1
      velocityY := vY3
      speed := bigS } }

/-- Model of `GameEngine.handlePaddleCollision` (first revision, engine.js lines
306-343): reverse the vertical velocity, deflect the horizontal component
by the hit offset, push the ball out of the paddle, bump the speed up to
the cap, add the bounded random variation `r * 0.1 * speed` (where `r`
stands for `Math.random() * 2 - 1`), then normalize the velocity to the
new speed using `Math.sqrt`. -/
def handlePaddleCollision (sqrtF : K → K) (r : K) (st : GSettings K)
    (ball : Ball K) (paddle : Paddle K) : Ball K :=
  let vY := -ball.velocityY
  let hitX := (ball.x - paddle.x) / (paddle.width / 2)
  let vX := ball.velocityX + hitX * (3 / 4) * ball.speed
  let overlap := ball.radius + paddle.height / 2 - |ball.y - paddle.y|
  let y2 := if 0 < overlap then (if 0 < vY then ball.y + overlap else ball.y - overlap)
    else ball.y
  let speed2 := min (ball.speed + st.ballSpeedIncrement) st.maxBallSpeed
  let vX2 := vX + r * (1 / 10) * speed2
  let currentSpeed := sqrtF (vX2 * vX2 + vY * vY)
  { ball with
      y := y2
      velocityX := vX2 / currentSpeed * speed2
      velocityY := vY / currentSpeed * speed2
      speed := speed2 }

/-- Model of `GameEngine.checkCollisions` (first revision): try the local (bottom)
paddle, then the remote (top) paddle — each firing `onBallOut(ball, true)`
on a hit and returning `true` — otherwise reflect off the side walls and
return `false`. -/
def checkCollisions (sqrtF : K → K) (r : K) (s : EngineState K) :
    EngineState K × List GameEvent × Bool :=
  let ball := s.ball
  let lp := s.localPlayer.paddle
  let rp := s.remotePlayer.paddle
  if 0 < ball.velocityY ∧
      lp.y - lp.height / 2 < ball.y + ball.radius ∧
      ball.y - ball.radius < lp.y + lp.height / 2 ∧
      lp.x - lp.width / 2 < ball.x + ball.radius ∧
      ball.x - ball.radius < lp.x + lp.width / 2 then
    ({ s with ball := handlePaddleCollision sqrtF r s.settings ball lp },
      [GameEvent.ballReturn], true)
  else if ball.velocityY < 0 ∧
      ball.y - ball.radius < rp.y + rp.height / 2 ∧
      rp.y - rp.height / 2 < ball.y + ball.radius ∧
      rp.x - rp.width / 2 < ball.x + ball.radius ∧
      ball.x - ball.radius < rp.x + rp.width / 2 then
    ({ s with ball := handlePaddleCollision sqrtF r s.settings ball rp },
      [GameEvent.ballReturn], true)
  else
    if ball.x - ball.radius ≤ 0 ∨ s.settings.fieldWidth ≤ ball.x + ball.radius then
      let x2 := if ball.x - ball.radius < 0 then ball.radius
        else if s.settings.fieldWidth < ball.x + ball.radius then
          s.settings.fieldWidth - ball.radius
        else ball.x
      ({ s with ball := { ball with velocityX := -ball.velocityX, x := x2 } }, [], false)
    else (s, [], false)

/-- Model of `GameEngine.handleBallOut` (first revision, engine.js lines 349-406):
score the point for the side opposite the crossed edge, fire one
`onScoreUpdate`, then either end the game (one `onGameOver` with
`localScore > remoteScore`, stop the ball, clear `isPlaying`) or serve
towards the loser, re-deriving who initializes the serve. -/
def handleBallOut (sqrtF : K → K) (rng : RandIn K) (s : EngineState K) :
    EngineState K × List GameEvent :=
  let ball := s.ball
  let st := s.settings
  let scored : Option (EngineState K × Bool) :=
    if st.fieldHeight + ball.radius < ball.y then
      some ({ s with remotePlayer := { s.remotePlayer with
        score := s.remotePlayer.score + 1 } }, false)
    else if ball.y < -ball.radius then
      some ({ s with localPlayer := { s.localPlayer with
        score := s.localPlayer.score + 1 } }, true)
    else none
  match scored with
  | none => (s, [])
  | some (s1, pointWinnerLocal) =>
    let evs := [GameEvent.scoreUpdate s1.localPlayer.score s1.remotePlayer.score]
    if st.winScore ≤ s1.localPlayer.score ∨ st.winScore ≤ s1.remotePlayer.score then
      let s2 := { s1 with
        isPlaying := false
        ball := { s1.ball with velocityX := 0, velocityY := 0 } }
      (s2, evs ++ [GameEvent.gameOver (s1.remotePlayer.score < s1.localPlayer.score)])
    else
      let serveTowardsLocal := !pointWinnerLocal
      let isSourceForNextServe :=
        (serveTowardsLocal = true ∧ s1.isHost = false) ∨
        (serveTowardsLocal = false ∧ s1.isHost = true)
      if isSourceForNextServe then
        (initBallMovement sqrtF rng serveTowardsLocal s1, evs)
      else (s1, evs)

/-- Model of `GameEngine.updateBall` (first revision, engine.js lines 204-234):
integrate the position, reflect off the side walls, and — wrapped in
`isSourceOfTruth()` guards — run the out-of-bounds handler and the
paddle-collision check. -/
def updateBall (sqrtF : K → K) (rng : RandIn K) (dt : K) (s : EngineState K) :
    EngineState K × List GameEvent :=
  let st := s.settings
  let b0 := s.ball
  let b1 := { b0 with x := b0.x + b0.velocityX * dt, y := b0.y + b0.velocityY * dt }
  let b2 :=
    if b1.x - b1.radius < 0 ∨ st.fieldWidth < b1.x + b1.radius then
      { b1 with
        velocityX := -b1.velocityX
        x := max b1.radius (min (st.fieldWidth - b1.radius) b1.x) }
    else b1
  let s1 := { s with ball := b2 }
  let step2 : EngineState K × List GameEvent :=
    if st.fieldHeight + b2.radius < b2.y ∨ b2.y < -b2.radius then
      if isSourceOfTruth s1 then handleBallOut sqrtF rng s1 else (s1, [])
    else (s1, [])
  if isSourceOfTruth step2.1 then
    let c := checkCollisions sqrtF rng.collide1 step2.1
    (c.1, step2.2 ++ c.2.1)
  else step2

/-- Model of `GameEngine.update` (first revision, engine.js lines 167-197): bail
out when not playing or paused, repair a zero `lastUpdateTime`, clamp the
elapsed time into (0, 0.1], run `updateBall`, then — unconditionally —
`checkCollisions`. -/
def update (sqrtF : K → K) (rng : RandIn K) (timestamp : K) (s : EngineState K) :
    Bool × EngineState K × List GameEvent :=
  if s.isPlaying = false ∨ s.isPaused = true then (false, s, [])
  else
    let last := if s.lastUpdateTime = 0 then timestamp - 16 else s.lastUpdateTime
    let dt0 := (timestamp - last) / 1000
    let dt1 := if dt0 ≤ 0 then 16 / 1000 else dt0
    let dt := if (1 / 10 : K) < dt1 then 1 / 10 else dt1
    let s1 := { s with lastUpdateTime := timestamp }
    let u := updateBall sqrtF rng dt s1
    let c := checkCollisions sqrtF rng.collide2 u.1
    (true, c.1, u.2 ++ c.2.1)

/-- Model of `GameEngine.updatePaddlePosition` (first revision, engine.js lines
413-421): clamp the new x into `[width / 2, fieldWidth - width / 2]` for
the selected paddle. -/
def updatePaddlePosition (x : K) (isLocalPaddle : Bool) (s : EngineState K) :
    EngineState K :=
  if isLocalPaddle then
    let p := s.localPlayer.paddle
    { s with localPlayer := { s.localPlayer with paddle := { p with
      x := max (p.width / 2) (min (s.settings.fieldWidth - p.width / 2) x) } } }
  else
    let p := s.remotePlayer.paddle
    { s with remotePlayer := { s.remotePlayer with paddle := { p with
      x := max (p.width / 2) (min (s.settings.fieldWidth - p.width / 2) x) } } }

/-- A score pair as carried by a `score` message: the sender's own score
(`localScore`, the message's `local` field) and the sender's view of the
other side (`remoteScore`, the message's `remote` field). -/
structure ScorePair where
  localScore : Nat
  remoteScore : Nat
deriving DecidableEq

/-- The argument of `GameEngine.updateFromRemote`: any subset of a ball
snapshot, a remote-paddle x and a score pair. -/
structure RemoteData (K : Type) where
  ball : Option (Ball K) := none
  remotePaddle : Option K := none
  score : Option ScorePair := none

/-- Model of `GameEngine.updateFromRemote` (first revision, engine.js lines
479-497): overwrite the ball verbatim, overwrite the remote paddle's x,
and copy `score.remote` into `remotePlayer.score` and `score.local` into
`localPlayer.score`, firing `onScoreUpdate` with the new values. -/
def updateFromRemote (data : RemoteData K) (s : EngineState K) :
    EngineState K × List GameEvent :=
  let s1 := match data.ball with
    | some b => { s with ball := b }
    | none => s
  let s2 := match data.remotePaddle with
    | some px => { s1 with remotePlayer := { s1.remotePlayer with
        paddle := { s1.remotePlayer.paddle with x := px } } }
    | none => s1
  match data.score with
  | some sc =>
    let s3 := { s2 with
      remotePlayer := { s2.remotePlayer with score := sc.remoteScore }
      localPlayer := { s2.localPlayer with score := sc.localScore } }
    (s3, [GameEvent.scoreUpdate s3.localPlayer.score s3.remotePlayer.score])
  | none => (s2, [])

/-- The Y-mirror applied by the router's `ball` case (`src/app.js`, first
revision, lines 404-420): flip `y` about the field height and negate
`velocityY`, keeping every other field. -/
def transformBall (fieldHeight : K) (b : Ball K) : Ball K :=
  { b with y := fieldHeight - b.y, velocityY := -b.velocityY }

/-- Model of `handleMessage`'s `ball` case with a non-null snapshot: transform the
received ball and hand it to `updateFromRemote`. -/
def handleBallMessage (b : Ball K) (s : EngineState K) :
    EngineState K × List GameEvent :=
  updateFromRemote { ball := some (transformBall s.settings.fieldHeight b) } s

/-- Model of `GameEngine.handlePaddleCollision` of the second engine revision
(engine.js lines 754-777): identical to the first revision's up to the
speed bump, but with no random variation and, crucially, no
re-normalization of the velocity vector. -/
def handlePaddleCollision2 (st : GSettings K) (ball : Ball K) (paddle : Paddle K) :
    Ball K :=
  let vY := -ball.velocityY
  let hitX := (ball.x - paddle.x) / (paddle.width / 2)
  let vX := ball.velocityX + hitX * (3 / 4) * ball.speed
  let overlap := ball.radius + paddle.height / 2 - |ball.y - paddle.y|
  let y2 := if 0 < overlap then (if 0 < vY then ball.y + overlap else ball.y - overlap)
    else ball.y
  let speed2 := min (ball.speed + st.ballSpeedIncrement) st.maxBallSpeed
  { ball with y := y2, velocityX := vX, velocityY := vY, speed := speed2 }

/-- The AABB overlap test `collidesWithPaddle` of the second revision's
`checkCollisions` (engine.js lines 711-728). -/
def collidesWithPaddle (ball : Ball K) (paddle : Paddle K) : Prop :=
  paddle.x - paddle.width / 2 < ball.x + ball.radius ∧
  ball.x - ball.radius < paddle.x + paddle.width / 2 ∧
  paddle.y - paddle.height / 2 < ball.y + ball.radius ∧
  ball.y - ball.radius < paddle.y + paddle.height / 2

instance (ball : Ball K) (paddle : Paddle K) : Decidable (collidesWithPaddle ball paddle) := by
  unfold collidesWithPaddle; infer_instance

/-- Iterate `update` over a list of timestamps, collecting every call's
boolean result (the game loop calling `update` repeatedly). -/
def runUpdates (sqrtF : K → K) (rng : RandIn K) (ts : List K) (s : EngineState K) :
    List Bool × EngineState K :=
  match ts with
  | [] => ([], s)
  | t :: rest =>
    let u := update sqrtF rng t s
    let r := runUpdates sqrtF rng rest u.2.1
    (u.1 :: r.1, r.2)

/-- Recognize an `onScoreUpdate` firing. -/
def isScoreEvent : GameEvent → Bool
  | .scoreUpdate _ _ => true
  | _ => false

/-- Recognize an `onGameOver` firing. -/
def isGameOverEvent : GameEvent → Bool
  | .gameOver _ => true
  | _ => false

/-- The paddle selected by `updatePaddlePosition`'s `isLocalPaddle` flag. -/
def paddleOf (s : EngineState K) (isLocalPaddle : Bool) : Paddle K :=
  if isLocalPaddle then s.localPlayer.paddle else s.remotePlayer.paddle

/-- Model of `GameEngine.createInitialGameState`, parameterized by the settings. -/
def initialGameState (isHost : Bool) (st : GSettings K) : EngineState K :=
  { isHost := isHost
    ball := { x := st.fieldWidth / 2, y := st.fieldHeight / 2, radius := st.ballRadius,
              velocityX := 0, velocityY := 0, speed := st.initialBallSpeed }
    localPlayer := { paddle := { x := st.fieldWidth / 2,
                                 y := st.fieldHeight - st.paddleHeight * 2,
                                 width := st.paddleWidth, height := st.paddleHeight },
                     score := 0 }
    remotePlayer := { paddle := { x := st.fieldWidth / 2, y := st.paddleHeight * 2,
                                  width := st.paddleWidth, height := st.paddleHeight },
                      score := 0 }
    isPlaying := false
    isPaused := false
    settings := st
    lastUpdateTime := 0 }

/-- Concrete settings used by witnesses (`settings.json` is absent from
the repository, so these stand in for plausible configured values). -/
def demoSettings : GSettings ℚ :=
  { fieldWidth := 600
    fieldHeight := 800
    paddleWidth := 100
    paddleHeight := 20
    ballRadius := 10
    initialBallSpeed := 5
    ballSpeedIncrement := 1 / 2
    maxBallSpeed := 15
    winScore := 5 }

/-- A fresh guest-side game state. -/
def demoGuestState : EngineState ℚ := initialGameState false demoSettings

/-- All-zero random draws. -/
def zeroRand : RandIn ℚ :=
  { collide1 := 0, collide2 := 0, cosAngle := 0, sinAngle := 0,
    coinY := false, coinX := false }

/-- A reachable guest-side mid-rally state: the ball travels upward
(velocityY = -4, so this engine is not the source of truth) and is one
0.016 s frame away from overlapping the remote (top) paddle. -/
def c1State : EngineState ℚ :=
  { isHost := false
    ball := { x := 299952 / 1000, y := 45064 / 1000, radius := 10,
              velocityX := 3, velocityY := -4, speed := 5 }
    localPlayer := { paddle := { x := 300, y := 760, width := 100, height := 20 },
                     score := 0 }
    remotePlayer := { paddle := { x := 300, y := 40, width := 100, height := 20 },
                      score := 0 }
    isPlaying := true
    isPaused := false
    settings := demoSettings
    lastUpdateTime := 0 }

/-- A ball meeting the second revision's remote-paddle collision
precondition (moving up, in the top half, overlapping `c2Paddle`). -/
def c2Ball : Ball ℚ :=
  { x := 300, y := 45, radius := 10, velocityX := 3, velocityY := -4, speed := 5 }

/-- The remote (top) paddle for the `c2Ball` collision. -/
def c2Paddle : Paddle ℚ := { x := 300, y := 40, width := 100, height := 20 }

/-- A guest-side state whose ball has just crossed the local (bottom)
edge while the remote player stands one point from the win threshold. -/
def c7State : EngineState ℚ :=
  { demoGuestState with
    isPlaying := true
    ball := { demoGuestState.ball with y := 811, velocityY := 4 }
    remotePlayer := { demoGuestState.remotePlayer with score := 4 } }

end Engine

section Codec

/-- The JSON value domain (numbers as exact rationals), extended with
`undefined` standing for JavaScript's `undefined` as produced by a missing
property access; `undefined` is never produced by parsing. -/
inductive Json where
  | null
  | undefined
  | bool (b : Bool)
  | num (q : ℚ)
  | str (s : String)
  | arr (elems : List Json)
  | obj (members : List (String × Json))

/-- Lowercase hexadecimal digit, as produced by `JSON.stringify` in
`\u00XX` escapes. -/
def hexDigitChar (n : Nat) : Char :=
  if n < 10 then Char.ofNat (48 + n) else Char.ofNat (87 + n)

/-- Model of `JSON.stringify`'s escaping of one character inside a string
literal: quote and backslash, the five short control escapes, `\u00XX`
for the remaining control characters, everything else verbatim. -/
def escapeChar (c : Char) : List Char :=
  if c = '"' then ['\\', '"']
  else if c = '\\' then ['\\', '\\']
  else if c = '\x08' then ['\\', 'b']
  else if c = '\t' then ['\\', 't']
  else if c = '\n' then ['\\', 'n']
  else if c = '\x0c' then ['\\', 'f']
  else if c = '\r' then ['\\', 'r']
  else if c.toNat < 32 then
    ['\\', 'u', '0', '0', hexDigitChar (c.toNat / 16), hexDigitChar (c.toNat % 16)]
  else [c]

/-- Escape a whole string body. -/
def escapeStr (cs : List Char) : List Char := cs.flatMap escapeChar

/-- A quoted JSON string literal. -/
def quoteStr (s : String) : List Char := '"' :: (escapeStr s.data ++ ['"'])

/-- Decode one short escape character. -/
def unescapeChar (e : Char) : Option Char :=
  if e = '"' then some '"'
  else if e = '\\' then some '\\'
  else if e = '/' then some '/'
  else if e = 'b' then some '\x08'
  else if e = 'f' then some '\x0c'
  else if e = 'n' then some '\n'
  else if e = 'r' then some '\r'
  else if e = 't' then some '\t'
  else none

/-- Value of a hexadecimal digit. -/
def hexVal (c : Char) : Option Nat :=
  if '0' ≤ c ∧ c ≤ '9' then some (c.toNat - 48)
  else if 'a' ≤ c ∧ c ≤ 'f' then some (c.toNat - 87)
  else if 'A' ≤ c ∧ c ≤ 'F' then some (c.toNat - 55)
  else none

/-- Parse the body of a JSON string literal after the opening quote,
accumulating decoded characters (reversed); raw control characters are
rejected as `JSON.parse` does. -/
def parseJStringLoop : List Char → List Char → Option (String × List Char)
  | [], _ => none
  | c :: rest, acc =>
    if c = '"' then some (⟨acc.reverse⟩, rest)
    else if c = '\\' then
      match rest with
      | [] => none
      | e :: rest2 =>
        if e = 'u' then
          match rest2 with
          | h1 :: h2 :: h3 :: h4 :: rest3 =>
            match hexVal h1, hexVal h2, hexVal h3, hexVal h4 with
            | some a, some b, some c2, some d =>
              parseJStringLoop rest3 (Char.ofNat (((a * 16 + b) * 16 + c2) * 16 + d) :: acc)
            | _, _, _, _ => none
          | _ => none
        else
          match unescapeChar e with
          | some u => parseJStringLoop rest2 (u :: acc)
          | none => none
    else if c.toNat < 32 then none
    else parseJStringLoop rest (c :: acc)

/-- JSON insignificant whitespace. -/
def isWsChar (c : Char) : Bool :=
  c = ' ' || c = '\t' || c = '\n' || c = '\r'

/-- Drop leading whitespace. -/
def skipWs : List Char → List Char
  | [] => []
  | c :: r => if isWsChar c then skipWs r else c :: r

/-- Longest leading run of decimal digits. -/
def takeDigits : List Char → List Char × List Char
  | [] => ([], [])
  | c :: r =>
    if c.isDigit then
      let p := takeDigits r
      (c :: p.1, p.2)
    else ([], c :: r)

/-- Numeric value of a digit run. -/
def digitsToNat (ds : List Char) : Nat :=
  ds.foldl (fun n c => n * 10 + (c.toNat - 48)) 0

/-- Parse the exponent part of a JSON number and apply it to the
already-signed mantissa. -/
def parseExponent (v : ℚ) (cs : List Char) : Option (ℚ × List Char) :=
  let es : Bool × List Char := match cs with
    | '+' :: r => (false, r)
    | '-' :: r => (true, r)
    | _ => (false, cs)
  match takeDigits es.2 with
  | ([], _) => none
  | (ds, r) =>
    let e : ℤ := if es.1 then -(digitsToNat ds : ℤ) else (digitsToNat ds : ℤ)
    some (v * (10 : ℚ) ^ e, r)

/-- Parse a JSON number (optional sign, integer part without redundant
leading zeros, optional fraction, optional exponent) into an exact
rational. -/
def parseNumber (cs : List Char) : Option (ℚ × List Char) :=
  let sign : Bool × List Char := match cs with
    | '-' :: r => (true, r)
    | _ => (false, cs)
  match takeDigits sign.2 with
  | ([], _) => none
  | (ds, r1) =>
    if ds.head? = some '0' ∧ ds.length ≠ 1 then none
    else
      let ip : ℚ := (digitsToNat ds : ℚ)
      let fr : Option (ℚ × List Char) := match r1 with
        | '.' :: r2 =>
          match takeDigits r2 with
          | ([], _) => none
          | (fs, r3) => some (ip + (digitsToNat fs : ℚ) / (10 : ℚ) ^ fs.length, r3)
        | _ => some (ip, r1)
      match fr with
      | none => none
      | some (v, r4) =>
        let sv : ℚ := if sign.1 then -v else v
        match r4 with
        | 'e' :: r5 => parseExponent sv r5
        | 'E' :: r5 => parseExponent sv r5
        | _ => some (sv, r4)

mutual

/-- Recursive-descent JSON value parser.  The fuel only bounds the
recursion; `jsonParse` supplies more fuel than any input can consume. -/
def parseValue : Nat → List Char → Option (Json × List Char)
  | 0, _ => none
  | fuel + 1, cs =>
    match skipWs cs with
    | [] => none
    | c :: rest =>
      if c = '"' then
        match parseJStringLoop rest [] with
        | some (s, r) => some (.str s, r)
        | none => none
      else if c = '\x7b' then
        match parseMembers fuel rest with
        | some (ms, r) => some (.obj ms, r)
        | none => none
      else if c = '[' then
        match parseElems fuel rest with
        | some (vs, r) => some (.arr vs, r)
        | none => none
      else if c = 't' then
        match rest with
        | 'r' :: 'u' :: 'e' :: r => some (.bool true, r)
        | _ => none
      else if c = 'f' then
        match rest with
        | 'a' :: 'l' :: 's' :: 'e' :: r => some (.bool false, r)
        | _ => none
      else if c = 'n' then
        match rest with
        | 'u' :: 'l' :: 'l' :: r => some (.null, r)
        | _ => none
      else
        match parseNumber (c :: rest) with
        | some (q, r) => some (.num q, r)
        | none => none

/-- Parse the elements of an array, positioned just after `[`. -/
def parseElems : Nat → List Char → Option (List Json × List Char)
  | 0, _ => none
  | fuel + 1, cs =>
    match skipWs cs with
    | ']' :: rest => some ([], rest)
    | cs2 =>
      match parseValue fuel cs2 with
      | none => none
      | some (v, r) =>
        match skipWs r with
        | ',' :: r2 =>
          match parseElems fuel r2 with
          | some (vs, r3) => some (v :: vs, r3)
          | none => none
        | ']' :: r2 => some ([v], r2)
        | _ => none

/-- Parse the members of an object, positioned just after the opening
brace. -/
def parseMembers : Nat → List Char → Option (List (String × Json) × List Char)
  | 0, _ => none
  | fuel + 1, cs =>
    match skipWs cs with
    | '\x7d' :: rest => some ([], rest)
    | '"' :: rest =>
      match parseJStringLoop rest [] with
      | none => none
      | some (k, r) =>
        match skipWs r with
        | ':' :: r2 =>
          match parseValue fuel r2 with
          | none => none
          | some (v, r3) =>
            match skipWs r3 with
            | ',' :: r4 =>
              match parseMembers fuel r4 with
              | some (ms, r5) => some ((k, v) :: ms, r5)
              | none => none
            | '\x7d' :: r4 => some ([(k, v)], r4)
            | _ => none
        | _ => none
    | _ => none

end

/-- Model of `JSON.parse`: parse one value and require only whitespace after it.
The fuel `2 * length + 2` dominates the parser's step count on any
input (each recursive call follows at most two fuel decrements per
consumed character). -/
def jsonParse (s : String) : Option Json :=
  match parseValue (2 * s.data.length + 2) s.data with
  | some (j, rest) => if skipWs rest = [] then some j else none
  | none => none

/-- A signaling envelope as built by `initAsHost` / `initAsGuest`
(connection.js): the `type` tag, the session description and the
gathered candidates.  Candidates are opaque payloads (spec §3,
NetworkCandidate), modelled as strings. -/
structure Envelope where
  typ : String
  sdp : String
  iceCandidates : List String
deriving DecidableEq

/-- Model of `JSON.stringify`'s rendering of the candidate array's elements. -/
def encodeElems : List String → List Char
  | [] => []
  | [c] => quoteStr c
  | c :: cs => quoteStr c ++ ',' :: encodeElems cs

/-- Model of `JSON.stringify({type, sdp, iceCandidates})` exactly as produced by
`initAsHost` (type "offer") and `initAsGuest` (type "answer"). -/
def encodeEnvelope (e : Envelope) : String :=
  ⟨'\x7b' :: (quoteStr "type" ++ ':' :: quoteStr e.typ ++
    ',' :: quoteStr "sdp" ++ ':' :: quoteStr e.sdp ++
    ',' :: quoteStr "iceCandidates" ++ ':' :: '[' :: encodeElems e.iceCandidates ++
    [']', '\x7d'])⟩

/-- The JSON value the envelope denotes. -/
def envelopeJson (e : Envelope) : Json :=
  .obj [("type", .str e.typ), ("sdp", .str e.sdp),
        ("iceCandidates", .arr (e.iceCandidates.map .str))]

/-- Characters that do not need a `\u00XX` escape: everything except
control characters other than backspace, tab, newline, formfeed and
carriage return (session descriptions use `\r\n`, never other control
characters). -/
def ValidChar (c : Char) : Prop :=
  32 ≤ c.toNat ∨ c = '\x08' ∨ c = '\t' ∨ c = '\n' ∨ c = '\x0c' ∨ c = '\r'

instance : DecidablePred ValidChar := fun c => by unfold ValidChar; infer_instance

/-- A string made of `ValidChar`s. -/
def ValidStr (s : String) : Prop := ∀ c ∈ s.data, ValidChar c

instance : DecidablePred ValidStr := fun s => by unfold ValidStr; infer_instance

/-- A valid envelope produced by this system: all its strings avoid
`\u`-escaped characters. -/
def Envelope.Valid (e : Envelope) : Prop :=
  ValidStr e.typ ∧ ValidStr e.sdp ∧ ∀ c ∈ e.iceCandidates, ValidStr c

instance (e : Envelope) : Decidable e.Valid := by unfold Envelope.Valid; infer_instance

/-- JavaScript property access `j.k`: `none` models a thrown TypeError
(access on null/undefined), `.undefined` a missing key or access on a
non-object primitive. -/
def Json.getF : Json → String → Option Json
  | .null, _ => none
  | .undefined, _ => none
  | .obj kvs, k => some ((kvs.lookup k).getD .undefined)
  | _, _ => some .undefined

/-- What the decode path signals onward: the hardcoded type tag, the
`sdp` value, and the candidate list signaled element by element. -/
structure DecodedSignal where
  typ : String
  sdp : Json
  candidates : List Json

/-- The decode path shared by `initAsGuest` (typ = "offer",
connection.js lines 150-185) and `processAnswer` (typ = "answer", lines
204-238): try `JSON.parse`; on success read `.iceCandidates` (signaling
its elements when it is an array) and signal `{type, sdp: parsed.sdp}`;
on parse failure fall back to the raw string as the session description
with no candidates.  `Except.error` models the rejection produced when
a property access on the parsed value throws. -/
def decodeSignal (typ : String) (s : String) : Except String DecodedSignal :=
  match jsonParse s with
  | some j =>
    match j.getF "iceCandidates" with
    | none => .error "Error processing offer. Please try again."
    | some cands =>
      match j.getF "sdp" with
      | none => .error "Error processing offer. Please try again."
      | some sdpv =>
        .ok { typ := typ
              sdp := sdpv
              candidates := match cands with | .arr xs => xs | _ => [] }
  | none => .ok { typ := typ, sdp := .str s, candidates := [] }

end Codec

section Connection

/-- Outcome of one `data` callback of the second-revision connection
(connection.js lines 753-788): the messages handed to `sendMessage`,
the round-trip-time display update (`updatePing`), and the message
delivered to the application `onMessage` handler (`none` when parsing
failed or a property access threw inside the try block). -/
structure HandlerResult where
  sent : List Json
  pingDisplay : Option ℚ
  delivered : Option Json

/-- The pong reply to a ping: `{type: 'pong', data: {timestamp: now,
pingTimestamp: <echoed value>}}`. -/
def pongMsg (now : ℚ) (ts : Json) : Json :=
  .obj [("type", .str "pong"),
        ("data", .obj [("timestamp", .num now), ("pingTimestamp", ts)])]

/-- The `data` handler of the second revision: parse the JSON; reply to
a ping with a pong echoing `message.data.timestamp`; on a pong compute
`now - message.data.pingTimestamp` for the ping display (a non-numeric
timestamp gives NaN, modelled as no numeric display); then — always —
pass the parsed message on to `onMessage`.  A parse error or a
TypeError from a property access aborts the handler inside its catch
(nothing sent, nothing delivered). -/
def handleData (now : ℚ) (raw : String) : HandlerResult :=
  match jsonParse raw with
  | none => ⟨[], none, none⟩
  | some msg =>
    match msg.getF "type" with
    | none => ⟨[], none, none⟩
    | some t =>
      match t with
      | .str tag =>
        if tag = "ping" then
          match msg.getF "data" with
          | none => ⟨[], none, none⟩
          | some d =>
            match d.getF "timestamp" with
            | none => ⟨[], none, none⟩
            | some ts => ⟨[pongMsg now ts], none, some msg⟩
        else if tag = "pong" then
          match msg.getF "data" with
          | none => ⟨[], none, none⟩
          | some d =>
            match d.getF "pingTimestamp" with
            | none => ⟨[], none, none⟩
            | some v =>
              ⟨[], match v with | .num q => some (now - q) | _ => none, some msg⟩
        else ⟨[], none, some msg⟩
      | _ => ⟨[], none, some msg⟩

/-- A concrete raw ping message as sent by the keepalive. -/
def pingRawC4 : String :=
  "\x7b\"type\":\"ping\",\"data\":\x7b\"timestamp\":5\x7d\x7d"

/-- The parsed form of `pingRawC4`. -/
def pingMsgC4 : Json :=
  .obj [("type", .str "ping"), ("data", .obj [("timestamp", .num 5)])]

/-- Connection lifecycle states (`_connectionState`). -/
inductive CState where
  | new
  | connecting
  | connected
  | disconnected
deriving DecidableEq

/-- The connection-manager state relevant to the keepalive:
`isConnected`, whether the 2-second ping interval is installed
(`_pingInterval != null`), and whether the Peer object is alive (a
destroyed peer fires no further events). -/
structure ConnState where
  isConnected : Bool
  pingActive : Bool
  peerAlive : Bool
  connState : CState
deriving DecidableEq

/-- Events that can reach the connection manager: a tick of the ping
interval timer, the peer's connect/close/error events, and a
`disconnect()` call. -/
inductive ConnEvent where
  | tick
  | peerConnect
  | peerClose
  | peerError (critical : Bool)
  | disconnectCall
deriving DecidableEq

/-- A message sent on the wire by these events (only pings arise). -/
inductive OutMsg where
  | ping
deriving DecidableEq

/-- One step of the connection manager (second revision): a `tick` runs
the `_setupPingInterval` callback — while `isConnected` it sends a ping
(subject to `sendMessage`'s own `isConnected && peer` guard), otherwise
it self-cancels via `_clearPingInterval`; `peerConnect` (suppressed on
a destroyed peer) records the connection and installs the interval;
close/error handlers record the disconnection, leaving the interval to
self-cancel on its next tick; `disconnect()` clears the interval
unconditionally and, if a peer exists, destroys it and forces the
disconnected state. -/
def connStep (s : ConnState) (e : ConnEvent) : ConnState × List OutMsg :=
  match e with
  | .tick =>
    if s.pingActive then
      if s.isConnected then (s, if s.peerAlive then [.ping] else [])
      else ({ s with pingActive := false }, [])
    else (s, [])
  | .peerConnect =>
    if s.peerAlive then
      ({ s with isConnected := true, connState := .connected, pingActive := true },
        [])
    else (s, [])
  | .peerClose =>
    if s.peerAlive then
      (if s.connState = .connected then
        { s with isConnected := false, connState := .disconnected }
      else s, [])
    else (s, [])
  | .peerError c =>
    if s.peerAlive then
      (if s.connState = .connected ∨ c = true then
        { s with isConnected := false, connState := .disconnected }
      else s, [])
    else (s, [])
  | .disconnectCall =>
    if s.peerAlive then
      ({ s with
          pingActive := false
          peerAlive := false
          isConnected := false
          connState := .disconnected }, [])
    else ({ s with pingActive := false }, [])

/-- Run a sequence of events, collecting every sent message. -/
def connRun (s : ConnState) : List ConnEvent → ConnState × List OutMsg
  | [] => (s, [])
  | e :: es =>
    let p := connStep s e
    let q := connRun p.1 es
    (q.1, p.2 ++ q.2)

end Connection

/-! ### Theorems -/

section EngineTheorems

variable {K : Type} [LinearOrderedField K]

/-- Clamping `max lo (min hi x)` sends below-range inputs to `lo`,
above-range inputs to `hi`, and keeps in-range inputs. -/
theorem clamp_spec (lo hi x : K) (h : lo ≤ hi) :
    (x < lo → max lo (min hi x) = lo) ∧
    (hi < x → max lo (min hi x) = hi) ∧
    (lo ≤ x → x ≤ hi → max lo (min hi x) = x) := by
  refine ⟨fun hx => ?_, fun hx => ?_, fun h1 h2 => ?_⟩
  · rw [min_eq_right (le_trans hx.le h), max_eq_left hx.le]
  · rw [min_eq_left hx.le, max_eq_right h]
  · rw [min_eq_right h2, max_eq_right h1]

/-- C9: `updatePaddlePosition(x)` stores an x clamped into
`[width / 2, fieldWidth - width / 2]`: inputs below the lower bound land
exactly on `width / 2`, inputs above the upper bound exactly on
`fieldWidth - width / 2`, in-range inputs are stored unchanged, and the
paddle's y, width and height are untouched. -/
theorem C9_updatePaddlePosition_clamps (s : EngineState K) (x : K) (isLocalPaddle : Bool)
    (hw : (paddleOf s isLocalPaddle).width / 2 ≤
      s.settings.fieldWidth - (paddleOf s isLocalPaddle).width / 2) :
    (x < (paddleOf s isLocalPaddle).width / 2 →
      (paddleOf (updatePaddlePosition x isLocalPaddle s) isLocalPaddle).x =
        (paddleOf s isLocalPaddle).width / 2) ∧
    (s.settings.fieldWidth - (paddleOf s isLocalPaddle).width / 2 < x →
      (paddleOf (updatePaddlePosition x isLocalPaddle s) isLocalPaddle).x =
        s.settings.fieldWidth - (paddleOf s isLocalPaddle).width / 2) ∧
    ((paddleOf s isLocalPaddle).width / 2 ≤ x →
      x ≤ s.settings.fieldWidth - (paddleOf s isLocalPaddle).width / 2 →
      (paddleOf (updatePaddlePosition x isLocalPaddle s) isLocalPaddle).x = x) ∧
    (paddleOf (updatePaddlePosition x isLocalPaddle s) isLocalPaddle).y =
      (paddleOf s isLocalPaddle).y ∧
    (paddleOf (updatePaddlePosition x isLocalPaddle s) isLocalPaddle).width =
      (paddleOf s isLocalPaddle).width ∧
    (paddleOf (updatePaddlePosition x isLocalPaddle s) isLocalPaddle).height =
      (paddleOf s isLocalPaddle).height := by
  obtain ⟨h1, h2, h3⟩ := clamp_spec ((paddleOf s isLocalPaddle).width / 2)
    (s.settings.fieldWidth - (paddleOf s isLocalPaddle).width / 2) x hw
  cases isLocalPaddle <;>
    simp_all [paddleOf, updatePaddlePosition]

/-- Witness for C9 at a concrete state and out-of-range input. -/
theorem C9_witness :
    ((paddleOf demoGuestState true).width / 2 ≤
      demoGuestState.settings.fieldWidth - (paddleOf demoGuestState true).width / 2) ∧
    (9999 < (paddleOf demoGuestState true).width / 2 →
      (paddleOf (updatePaddlePosition (9999 : ℚ) true demoGuestState) true).x =
        (paddleOf demoGuestState true).width / 2) ∧
    (demoGuestState.settings.fieldWidth - (paddleOf demoGuestState true).width / 2 < 9999 →
      (paddleOf (updatePaddlePosition (9999 : ℚ) true demoGuestState) true).x =
        demoGuestState.settings.fieldWidth - (paddleOf demoGuestState true).width / 2) ∧
    ((paddleOf demoGuestState true).width / 2 ≤ 9999 →
      (9999 : ℚ) ≤ demoGuestState.settings.fieldWidth -
        (paddleOf demoGuestState true).width / 2 →
      (paddleOf (updatePaddlePosition (9999 : ℚ) true demoGuestState) true).x = 9999) ∧
    (paddleOf (updatePaddlePosition (9999 : ℚ) true demoGuestState) true).y =
      (paddleOf demoGuestState true).y ∧
    (paddleOf (updatePaddlePosition (9999 : ℚ) true demoGuestState) true).width =
      (paddleOf demoGuestState true).width ∧
    (paddleOf (updatePaddlePosition (9999 : ℚ) true demoGuestState) true).height =
      (paddleOf demoGuestState true).height :=
  ⟨by norm_num [paddleOf, demoGuestState, initialGameState, demoSettings],
    C9_updatePaddlePosition_clamps demoGuestState 9999 true
      (by norm_num [paddleOf, demoGuestState, initialGameState, demoSettings])⟩

/-- C10: the router's `ball` case stores the received snapshot with `y`
replaced by `fieldHeight - y` and `velocityY` negated, while `x`,
`velocityX`, `radius` and `speed` are stored exactly as received. -/
theorem C10_ball_mirror (b : Ball K) (s : EngineState K) :
    (handleBallMessage b s).1.ball.x = b.x ∧
    (handleBallMessage b s).1.ball.y = s.settings.fieldHeight - b.y ∧
    (handleBallMessage b s).1.ball.velocityX = b.velocityX ∧
    (handleBallMessage b s).1.ball.velocityY = -b.velocityY ∧
    (handleBallMessage b s).1.ball.radius = b.radius ∧
    (handleBallMessage b s).1.ball.speed = b.speed := by
  simp [handleBallMessage, updateFromRemote, transformBall]

/-- C3 (code bug): on the guest, reconciling the host's score message
`{local := 1, remote := 0}` (host scored) stores the sender's `local`
value into the receiver's own `localPlayer.score` and the sender's
`remote` value into `remotePlayer.score` — the same-named verbatim copy
the spec forbids — instead of swapping the perspective-relative fields. -/
theorem C3_score_copied_without_swap :
    (updateFromRemote { score := some { localScore := 1, remoteScore := 0 } }
        demoGuestState).1.localPlayer.score = 1 ∧
    (updateFromRemote { score := some { localScore := 1, remoteScore := 0 } }
        demoGuestState).1.remotePlayer.score = 0 := by
  simp [updateFromRemote, demoGuestState, initialGameState]

/-- The function `update` is a no-op returning `false` on a non-playing state. -/
theorem update_not_playing (sqrtF : K → K) (rng : RandIn K) (t : K) (s : EngineState K)
    (h : s.isPlaying = false) : update sqrtF rng t s = (false, s, []) := by
  simp [update, h]

/-- Every `update` call in a run started from a non-playing state
returns `false`. -/
theorem runUpdates_not_playing (sqrtF : K → K) (rng : RandIn K) (s : EngineState K)
    (h : s.isPlaying = false) (ts : List K) :
    ((runUpdates sqrtF rng ts s).1.all fun b => b = false) = true := by
  induction ts with
  | nil => simp [runUpdates]
  | cons t rest ih =>
    simpa [runUpdates, update_not_playing sqrtF rng t s h] using ih

/-- C7: when the ball has crossed the local (bottom) edge,
`handleBallOut` increments the remote score by exactly one, leaves the
local score unchanged, and fires exactly one score event; if either
score has reached the win threshold it fires exactly one game-over
event carrying whether the local side won, clears `isPlaying`, and
every subsequent `update` call returns `false`; otherwise no game-over
event fires. -/
theorem C7_scoring (sqrtF : K → K) (rng : RandIn K) (s : EngineState K)
    (hout : s.settings.fieldHeight + s.ball.radius < s.ball.y) :
    (handleBallOut sqrtF rng s).1.remotePlayer.score = s.remotePlayer.score + 1 ∧
    (handleBallOut sqrtF rng s).1.localPlayer.score = s.localPlayer.score ∧
    (handleBallOut sqrtF rng s).2.countP isScoreEvent = 1 ∧
    (s.settings.winScore ≤ s.localPlayer.score ∨
        s.settings.winScore ≤ s.remotePlayer.score + 1 →
      (handleBallOut sqrtF rng s).2 =
        [GameEvent.scoreUpdate s.localPlayer.score (s.remotePlayer.score + 1),
         GameEvent.gameOver (s.remotePlayer.score + 1 < s.localPlayer.score)] ∧
      (handleBallOut sqrtF rng s).1.isPlaying = false ∧
      ∀ ts : List K,
        ((runUpdates sqrtF rng ts (handleBallOut sqrtF rng s).1).1.all
          fun b => b = false) = true) ∧
    (¬ (s.settings.winScore ≤ s.localPlayer.score ∨
        s.settings.winScore ≤ s.remotePlayer.score + 1) →
      (handleBallOut sqrtF rng s).2 =
        [GameEvent.scoreUpdate s.localPlayer.score (s.remotePlayer.score + 1)]) := by
  by_cases hth : s.settings.winScore ≤ s.localPlayer.score ∨
      s.settings.winScore ≤ s.remotePlayer.score + 1
  · refine ⟨?_, ?_, ?_, fun _ => ⟨?_, ?_, fun ts => ?_⟩, fun hc => absurd hth hc⟩
    · simp [handleBallOut, hout, hth]
    · simp [handleBallOut, hout, hth]
    · simp [handleBallOut, hout, hth, isScoreEvent]
    · simp [handleBallOut, hout, hth]
    · simp [handleBallOut, hout, hth]
    · exact runUpdates_not_playing sqrtF rng _ (by simp [handleBallOut, hout, hth]) ts
  · refine ⟨?_, ?_, ?_, fun hc => absurd hc hth, fun _ => ?_⟩
    · simp only [handleBallOut, hout, if_true, hth, if_false]
      simp [hth, hout]
      split <;> simp [initBallMovement]
    · simp [handleBallOut, hout, hth]
      split <;> simp [initBallMovement]
    · simp [handleBallOut, hout, hth, isScoreEvent]
      split <;> simp [isScoreEvent]
    · simp [handleBallOut, hout, hth]
      split <;> simp

/-- Witness for C7 at a concrete guest state one point from game over. -/
theorem C7_witness :
    c7State.settings.fieldHeight + c7State.ball.radius < c7State.ball.y ∧
    ((handleBallOut (fun _ => (0 : ℚ)) zeroRand c7State).1.remotePlayer.score =
        c7State.remotePlayer.score + 1 ∧
      (handleBallOut (fun _ => (0 : ℚ)) zeroRand c7State).1.localPlayer.score =
        c7State.localPlayer.score ∧
      (handleBallOut (fun _ => (0 : ℚ)) zeroRand c7State).2.countP isScoreEvent = 1 ∧
      (c7State.settings.winScore ≤ c7State.localPlayer.score ∨
          c7State.settings.winScore ≤ c7State.remotePlayer.score + 1 →
        (handleBallOut (fun _ => (0 : ℚ)) zeroRand c7State).2 =
          [GameEvent.scoreUpdate c7State.localPlayer.score
            (c7State.remotePlayer.score + 1),
           GameEvent.gameOver
            (c7State.remotePlayer.score + 1 < c7State.localPlayer.score)] ∧
        (handleBallOut (fun _ => (0 : ℚ)) zeroRand c7State).1.isPlaying = false ∧
        ∀ ts : List ℚ,
          ((runUpdates (fun _ => (0 : ℚ)) zeroRand ts
            (handleBallOut (fun _ => (0 : ℚ)) zeroRand c7State).1).1.all
            fun b => b = false) = true) ∧
      (¬ (c7State.settings.winScore ≤ c7State.localPlayer.score ∨
          c7State.settings.winScore ≤ c7State.remotePlayer.score + 1) →
        (handleBallOut (fun _ => (0 : ℚ)) zeroRand c7State).2 =
          [GameEvent.scoreUpdate c7State.localPlayer.score
            (c7State.remotePlayer.score + 1)])) :=
  ⟨by norm_num [c7State, demoGuestState, initialGameState, demoSettings],
    C7_scoring (fun _ => (0 : ℚ)) zeroRand c7State
      (by norm_num [c7State, demoGuestState, initialGameState, demoSettings])⟩

/-- Normalizing a nonzero vector to length `s` gives magnitude exactly
`s`. -/
theorem normalize_magnitude (a b s : ℝ) (hb : b ≠ 0) (hs : 0 ≤ s) :
    Real.sqrt ((a / Real.sqrt (a * a + b * b) * s) ^ 2 +
      (b / Real.sqrt (a * a + b * b) * s) ^ 2) = s := by
  have hpos : 0 < a * a + b * b := by
    have h1 : 0 < b * b := mul_self_pos.2 hb
    nlinarith [mul_self_nonneg a]
  have hc : 0 < Real.sqrt (a * a + b * b) := Real.sqrt_pos.2 hpos
  have hcsq : Real.sqrt (a * a + b * b) ^ 2 = a * a + b * b := Real.sq_sqrt hpos.le
  have key : (a / Real.sqrt (a * a + b * b) * s) ^ 2 +
      (b / Real.sqrt (a * a + b * b) * s) ^ 2 = s ^ 2 := by
    field_simp
    ring
  rw [key, Real.sqrt_sq hs]

/-- C2 (amended): the first revision's `handlePaddleCollision`
re-normalizes the deflected and randomly perturbed velocity, so for any
ball with nonzero vertical velocity and positive updated speed the
resulting magnitude `sqrt(velocityX^2 + velocityY^2)` equals the updated
`ball.speed` exactly, which is `min (speed + increment) maxSpeed`. -/
theorem C2_rev1_renormalizes (st : GSettings ℝ) (ball : Ball ℝ) (paddle : Paddle ℝ)
    (r : ℝ) (hvy : ball.velocityY ≠ 0)
    (hsp : 0 < min (ball.speed + st.ballSpeedIncrement) st.maxBallSpeed) :
    Real.sqrt ((handlePaddleCollision Real.sqrt r st ball paddle).velocityX ^ 2 +
        (handlePaddleCollision Real.sqrt r st ball paddle).velocityY ^ 2) =
      (handlePaddleCollision Real.sqrt r st ball paddle).speed ∧
    (handlePaddleCollision Real.sqrt r st ball paddle).speed =
      min (ball.speed + st.ballSpeedIncrement) st.maxBallSpeed := by
  constructor
  · simp only [handlePaddleCollision]
    exact normalize_magnitude _ _ _ (neg_ne_zero.2 hvy) hsp.le
  · simp [handlePaddleCollision]

/-- Witness for C2 at a concrete ball, paddle and settings. -/
theorem C2_witness :
    ((⟨300, 45, 10, 3, -4, 5⟩ : Ball ℝ).velocityY ≠ 0 ∧
      (0 : ℝ) < min ((⟨300, 45, 10, 3, -4, 5⟩ : Ball ℝ).speed +
        (⟨600, 800, 100, 20, 10, 5, 1 / 2, 15, 5⟩ : GSettings ℝ).ballSpeedIncrement)
        (⟨600, 800, 100, 20, 10, 5, 1 / 2, 15, 5⟩ : GSettings ℝ).maxBallSpeed) ∧
    (Real.sqrt ((handlePaddleCollision Real.sqrt 0
          (⟨600, 800, 100, 20, 10, 5, 1 / 2, 15, 5⟩ : GSettings ℝ)
          (⟨300, 45, 10, 3, -4, 5⟩ : Ball ℝ)
          (⟨300, 40, 100, 20⟩ : Paddle ℝ)).velocityX ^ 2 +
        (handlePaddleCollision Real.sqrt 0
          (⟨600, 800, 100, 20, 10, 5, 1 / 2, 15, 5⟩ : GSettings ℝ)
          (⟨300, 45, 10, 3, -4, 5⟩ : Ball ℝ)
          (⟨300, 40, 100, 20⟩ : Paddle ℝ)).velocityY ^ 2) =
      (handlePaddleCollision Real.sqrt 0
          (⟨600, 800, 100, 20, 10, 5, 1 / 2, 15, 5⟩ : GSettings ℝ)
          (⟨300, 45, 10, 3, -4, 5⟩ : Ball ℝ)
          (⟨300, 40, 100, 20⟩ : Paddle ℝ)).speed ∧
      (handlePaddleCollision Real.sqrt 0
          (⟨600, 800, 100, 20, 10, 5, 1 / 2, 15, 5⟩ : GSettings ℝ)
          (⟨300, 45, 10, 3, -4, 5⟩ : Ball ℝ)
          (⟨300, 40, 100, 20⟩ : Paddle ℝ)).speed =
        min ((⟨300, 45, 10, 3, -4, 5⟩ : Ball ℝ).speed +
          (⟨600, 800, 100, 20, 10, 5, 1 / 2, 15, 5⟩ : GSettings ℝ).ballSpeedIncrement)
          (⟨600, 800, 100, 20, 10, 5, 1 / 2, 15, 5⟩ : GSettings ℝ).maxBallSpeed) :=
  ⟨⟨by norm_num, by norm_num⟩,
    C2_rev1_renormalizes (⟨600, 800, 100, 20, 10, 5, 1 / 2, 15, 5⟩ : GSettings ℝ)
      (⟨300, 45, 10, 3, -4, 5⟩ : Ball ℝ) (⟨300, 40, 100, 20⟩ : Paddle ℝ) 0
      (by norm_num) (by norm_num)⟩

/-- C2 (counterexample): the second revision's `handlePaddleCollision`,
applied at a state satisfying its collision precondition (ball moving
up in the top half, overlapping the remote paddle), leaves a velocity
of magnitude 5 while the updated `ball.speed` is 5.5 — no
re-normalization happens. -/
theorem C2_rev2_counterexample :
    (c2Ball.velocityY < 0 ∧ c2Ball.y < demoSettings.fieldHeight / 2 ∧
      collidesWithPaddle c2Ball c2Paddle) ∧
    Real.sqrt
        (((handlePaddleCollision2 demoSettings c2Ball c2Paddle).velocityX : ℝ) ^ 2 +
          ((handlePaddleCollision2 demoSettings c2Ball c2Paddle).velocityY : ℝ) ^ 2) ≠
      ((handlePaddleCollision2 demoSettings c2Ball c2Paddle).speed : ℝ) := by
  have hres : handlePaddleCollision2 demoSettings c2Ball c2Paddle =
      { x := 300, y := 60, radius := 10, velocityX := 3, velocityY := 4,
        speed := 11 / 2 } := by
    have habs : |(45 : ℚ) - 40| = 5 := by
      rw [show (45 : ℚ) - 40 = 5 by norm_num]
      exact abs_of_pos (by norm_num)
    norm_num [handlePaddleCollision2, c2Ball, c2Paddle, demoSettings, habs]
  refine ⟨⟨by norm_num [c2Ball], by norm_num [c2Ball, demoSettings],
    by norm_num [collidesWithPaddle, c2Ball, c2Paddle]⟩, ?_⟩
  rw [hres]
  push_cast
  rw [show ((3 : ℝ) ^ 2 + (4 : ℝ) ^ 2) = 5 ^ 2 by norm_num,
    Real.sqrt_sq (by norm_num : (0 : ℝ) ≤ 5)]
  norm_num

/-- C1 (code bug): `update` calls `checkCollisions` unconditionally
after `updateBall`, so one tick on `c1State` — a guest engine that is
not the source of truth for the current trajectory (ball moving upward)
— runs `handlePaddleCollision` against the remote paddle and mutates
`ball.velocity`: the vertical velocity flips from -4 to 22/5.  The
function `sqrtF` may be any model of `Math.sqrt` agreeing with the real
square root at the single radicand reached, 25. -/
theorem C1_nonsource_tick_mutates (sqrtF : ℚ → ℚ) (h25 : sqrtF 25 = 5) :
    isSourceOfTruth c1State = false ∧
    c1State.ball.velocityY = -4 ∧
    (update sqrtF zeroRand 100 c1State).2.1.ball.velocityY = 22 / 5 := by
  have habs : |(45 : ℚ) - 40| = 5 := by
    rw [show (45 : ℚ) - 40 = 5 by norm_num]
    exact abs_of_pos (by norm_num)
  refine ⟨by norm_num [isSourceOfTruth, c1State], by norm_num [c1State], ?_⟩
  norm_num [update, updateBall, checkCollisions, handlePaddleCollision, isSourceOfTruth,
    handleBallOut, c1State, zeroRand, demoSettings, habs, h25]

/-- Witness for C1: the constant function 5 agrees with the square root
at 25. -/
theorem C1_witness :
    (fun _ : ℚ => (5 : ℚ)) 25 = 5 ∧
    (isSourceOfTruth c1State = false ∧
      c1State.ball.velocityY = -4 ∧
      (update (fun _ : ℚ => (5 : ℚ)) zeroRand 100 c1State).2.1.ball.velocityY = 22 / 5) :=
  ⟨rfl, C1_nonsource_tick_mutates (fun _ => 5) rfl⟩

end EngineTheorems

section CodecTheorems

/-- The function `skipWs` keeps a list whose head is not whitespace. -/
theorem skipWs_cons_of_not_ws (c : Char) (r : List Char) (h : isWsChar c = false) :
    skipWs (c :: r) = c :: r := by
  simp [skipWs, h]

/-- Parsing an escaped string body recovers it verbatim (for bodies
with no `\u`-escaped characters). -/
theorem parseJStringLoop_escape (bs : List Char) (hv : ∀ c ∈ bs, ValidChar c) :
    ∀ acc rest, parseJStringLoop (escapeStr bs ++ '"' :: rest) acc =
      some (⟨acc.reverse ++ bs⟩, rest) := by
  induction bs with
  | nil =>
    intro acc rest
    rw [show escapeStr [] ++ '"' :: rest = '"' :: rest by simp [escapeStr],
      parseJStringLoop.eq_def]
    simp
  | cons c cs ih =>
    intro acc rest
    have hvc : ValidChar c := hv c (by simp)
    have hvs : ∀ x ∈ cs, ValidChar x := fun x hx => hv x (by simp [hx])
    have step : escapeStr (c :: cs) ++ '"' :: rest =
        escapeChar c ++ (escapeStr cs ++ '"' :: rest) := by
      simp [escapeStr, List.append_assoc]
    rw [step]
    by_cases h1 : c = '"'
    · subst h1
      rw [show escapeChar '"' = ['\\', '"'] by simp [escapeChar], List.cons_append,
        List.cons_append, List.nil_append, parseJStringLoop.eq_def]
      simpa [unescapeChar] using ih hvs ('"' :: acc) rest
    by_cases h2 : c = '\\'
    · subst h2
      rw [show escapeChar '\\' = ['\\', '\\'] by simp [escapeChar], List.cons_append,
        List.cons_append, List.nil_append, parseJStringLoop.eq_def]
      simpa [unescapeChar] using ih hvs ('\\' :: acc) rest
    by_cases h3 : c = '\x08'
    · subst h3
      rw [show escapeChar '\x08' = ['\\', 'b'] by simp [escapeChar], List.cons_append,
        List.cons_append, List.nil_append, parseJStringLoop.eq_def]
      simpa [unescapeChar] using ih hvs ('\x08' :: acc) rest
    by_cases h4 : c = '\t'
    · subst h4
      rw [show escapeChar '\t' = ['\\', 't'] by simp [escapeChar], List.cons_append,
        List.cons_append, List.nil_append, parseJStringLoop.eq_def]
      simpa [unescapeChar] using ih hvs ('\t' :: acc) rest
    by_cases h5 : c = '\n'
    · subst h5
      rw [show escapeChar '\n' = ['\\', 'n'] by simp [escapeChar], List.cons_append,
        List.cons_append, List.nil_append, parseJStringLoop.eq_def]
      simpa [unescapeChar] using ih hvs ('\n' :: acc) rest
    by_cases h6 : c = '\x0c'
    · subst h6
      rw [show escapeChar '\x0c' = ['\\', 'f'] by simp [escapeChar], List.cons_append,
        List.cons_append, List.nil_append, parseJStringLoop.eq_def]
      simpa [unescapeChar] using ih hvs ('\x0c' :: acc) rest
    by_cases h7 : c = '\r'
    · subst h7
      rw [show escapeChar '\r' = ['\\', 'r'] by simp [escapeChar], List.cons_append,
        List.cons_append, List.nil_append, parseJStringLoop.eq_def]
      simpa [unescapeChar] using ih hvs ('\r' :: acc) rest
    · have h32 : ¬ c.toNat < 32 := by
        rcases hvc with h | h | h | h | h | h
        · omega
        all_goals simp_all
      rw [show escapeChar c = [c] by
          simp only [escapeChar, if_neg h1, if_neg h2, if_neg h3, if_neg h4, if_neg h5,
            if_neg h6, if_neg h7, if_neg h32],
        List.singleton_append, parseJStringLoop.eq_def]
      simpa [h1, h2, h32] using ih hvs (c :: acc) rest

/-- Prepending a quoted string to a suffix, in parser-ready form. -/
theorem quoteStr_append (s : String) (X : List Char) :
    quoteStr s ++ X = '"' :: (escapeStr s.data ++ '"' :: X) := by
  simp [quoteStr]

/-- The value parser on a quoted string literal. -/
theorem parseValue_quoteStr (fuel : Nat) (s : String) (rest : List Char)
    (hv : ValidStr s) :
    parseValue (fuel + 1) (quoteStr s ++ rest) = some (.str s, rest) := by
  have hpl := parseJStringLoop_escape s.data hv [] rest
  rw [quoteStr_append, parseValue.eq_def]
  simp only [skipWs_cons_of_not_ws '"' _ (by decide)]
  simp [hpl]

/-- The element parser on an encoded candidate array body followed by
the closing bracket. -/
theorem parseElems_encodeElems (cands : List String) :
    ∀ fuel rest, (∀ c ∈ cands, ValidStr c) →
      parseElems (fuel + cands.length + 1) (encodeElems cands ++ ']' :: rest) =
        some (cands.map Json.str, rest) := by
  induction cands with
  | nil =>
    intro fuel rest _
    rw [show encodeElems [] ++ ']' :: rest = ']' :: rest by simp [encodeElems],
      parseElems.eq_def]
    simp [skipWs_cons_of_not_ws ']' _ (by decide)]
  | cons c cs ih =>
    intro fuel rest hv
    have hvc : ValidStr c := hv c (by simp)
    have hvs : ∀ x ∈ cs, ValidStr x := fun x hx => hv x (by simp [hx])
    cases cs with
    | nil =>
      rw [show encodeElems [c] ++ ']' :: rest = quoteStr c ++ ']' :: rest by
          simp [encodeElems]]
      have hpv := parseValue_quoteStr fuel c (']' :: rest) hvc
      rw [quoteStr_append] at hpv ⊢
      rw [show fuel + ([c] : List String).length + 1 = (fuel + 1) + 1 from rfl,
        parseElems.eq_def]
      simp only [skipWs_cons_of_not_ws '"' _ (by decide)]
      simp [hpv, skipWs_cons_of_not_ws ']' _ (by decide)]
    | cons c2 cs2 =>
      rw [show encodeElems (c :: c2 :: cs2) ++ ']' :: rest =
          quoteStr c ++ ',' :: (encodeElems (c2 :: cs2) ++ ']' :: rest) by
          simp [encodeElems]]
      have hpv := parseValue_quoteStr (fuel + (c2 :: cs2).length)
        c (',' :: (encodeElems (c2 :: cs2) ++ ']' :: rest)) hvc
      rw [quoteStr_append] at hpv ⊢
      have hfe : fuel + (c :: c2 :: cs2).length + 1 =
          ((fuel + (c2 :: cs2).length) + 1) + 1 := by
        simp only [List.length_cons]
        omega
      rw [hfe, parseElems.eq_def]
      simp only [skipWs_cons_of_not_ws '"' _ (by decide)]
      have hih := ih fuel rest hvs
      simp only [List.length_cons] at hpv hih ⊢
      simp [hpv, skipWs_cons_of_not_ws ',' _ (by decide), hih]

/-- The member parser on the exact three-member envelope body. -/
theorem parseMembers_envelope (t s : String) (cands : List String) (fuel : Nat)
    (rest : List Char) (hvt : ValidStr t) (hvsd : ValidStr s)
    (hvc : ∀ c ∈ cands, ValidStr c) :
    parseMembers (fuel + cands.length + 5)
      (quoteStr "type" ++ (':' :: (quoteStr t ++ (',' ::
        (quoteStr "sdp" ++ (':' :: (quoteStr s ++ (',' ::
        (quoteStr "iceCandidates" ++ (':' :: ('[' ::
        (encodeElems cands ++ (']' :: ('\x7d' :: rest)))))))))))))) =
      some ([("type", .str t), ("sdp", .str s),
        ("iceCandidates", .arr (cands.map Json.str))], rest) := by
  have hkt : ∀ x ∈ ("type" : String).data, ValidChar x := by decide
  have hki : ∀ x ∈ ("iceCandidates" : String).data, ValidChar x := by decide
  have hksd : ∀ x ∈ ("sdp" : String).data, ValidChar x := by decide
  have hv3 : parseValue (fuel + cands.length + 2)
      ('[' :: (encodeElems cands ++ (']' :: ('\x7d' :: rest)))) =
      some (.arr (cands.map Json.str), '\x7d' :: rest) := by
    rw [show fuel + cands.length + 2 = (fuel + cands.length + 1) + 1 by omega,
      parseValue.eq_def]
    simp only [skipWs_cons_of_not_ws '[' _ (by decide)]
    simp [parseElems_encodeElems cands fuel ('\x7d' :: rest) hvc]
  have hm3 : parseMembers (fuel + cands.length + 3)
      (quoteStr "iceCandidates" ++ (':' :: ('[' ::
        (encodeElems cands ++ (']' :: ('\x7d' :: rest)))))) =
      some ([("iceCandidates", .arr (cands.map Json.str))], rest) := by
    rw [quoteStr_append,
      show fuel + cands.length + 3 = (fuel + cands.length + 2) + 1 by omega,
      parseMembers.eq_def]
    simp only [skipWs_cons_of_not_ws '"' _ (by decide),
      parseJStringLoop_escape _ hki,
      skipWs_cons_of_not_ws ':' _ (by decide), hv3,
      skipWs_cons_of_not_ws '\x7d' _ (by decide),
      List.reverse_nil, List.nil_append]
  have hv2 : parseValue (fuel + cands.length + 3)
      (quoteStr s ++ (',' :: (quoteStr "iceCandidates" ++ (':' :: ('[' ::
        (encodeElems cands ++ (']' :: ('\x7d' :: rest)))))))) =
      some (.str s, ',' :: (quoteStr "iceCandidates" ++ (':' :: ('[' ::
        (encodeElems cands ++ (']' :: ('\x7d' :: rest))))))) := by
    rw [show fuel + cands.length + 3 = (fuel + cands.length + 2) + 1 by omega]
    exact parseValue_quoteStr _ s _ hvsd
  have hm2 : parseMembers (fuel + cands.length + 4)
      (quoteStr "sdp" ++ (':' :: (quoteStr s ++ (',' ::
        (quoteStr "iceCandidates" ++ (':' :: ('[' ::
        (encodeElems cands ++ (']' :: ('\x7d' :: rest)))))))))) =
      some ([("sdp", .str s), ("iceCandidates", .arr (cands.map Json.str))],
        rest) := by
    rw [quoteStr_append,
      show fuel + cands.length + 4 = (fuel + cands.length + 3) + 1 by omega,
      parseMembers.eq_def]
    simp only [skipWs_cons_of_not_ws '"' _ (by decide),
      parseJStringLoop_escape _ hksd,
      skipWs_cons_of_not_ws ':' _ (by decide), hv2,
      skipWs_cons_of_not_ws ',' _ (by decide), hm3,
      List.reverse_nil, List.nil_append]
  have hv1 : parseValue (fuel + cands.length + 4)
      (quoteStr t ++ (',' :: (quoteStr "sdp" ++ (':' :: (quoteStr s ++ (',' ::
        (quoteStr "iceCandidates" ++ (':' :: ('[' ::
        (encodeElems cands ++ (']' :: ('\x7d' :: rest)))))))))))) =
      some (.str t, ',' :: (quoteStr "sdp" ++ (':' :: (quoteStr s ++ (',' ::
        (quoteStr "iceCandidates" ++ (':' :: ('[' ::
        (encodeElems cands ++ (']' :: ('\x7d' :: rest))))))))))) := by
    rw [show fuel + cands.length + 4 = (fuel + cands.length + 3) + 1 by omega]
    exact parseValue_quoteStr _ t _ hvt
  rw [quoteStr_append,
    show fuel + cands.length + 5 = (fuel + cands.length + 4) + 1 by omega,
    parseMembers.eq_def]
  simp only [skipWs_cons_of_not_ws '"' _ (by decide),
    parseJStringLoop_escape _ hkt,
    skipWs_cons_of_not_ws ':' _ (by decide), hv1,
    skipWs_cons_of_not_ws ',' _ (by decide), hm2,
    List.reverse_nil, List.nil_append]

/-- The value parser on a complete encoded envelope. -/
theorem parseValue_envelope (e : Envelope) (fuel : Nat) (rest : List Char)
    (hv : e.Valid) :
    parseValue (fuel + e.iceCandidates.length + 6)
      ((encodeEnvelope e).data ++ rest) = some (envelopeJson e, rest) := by
  obtain ⟨hvt, hvsd, hvc⟩ := hv
  have hdata : (encodeEnvelope e).data ++ rest =
      '\x7b' :: (quoteStr "type" ++ (':' :: (quoteStr e.typ ++ (',' ::
        (quoteStr "sdp" ++ (':' :: (quoteStr e.sdp ++ (',' ::
        (quoteStr "iceCandidates" ++ (':' :: ('[' ::
        (encodeElems e.iceCandidates ++ (']' :: ('\x7d' :: rest)))))))))))))) := by
    simp [encodeEnvelope]
  rw [hdata,
    show fuel + e.iceCandidates.length + 6 = (fuel + e.iceCandidates.length + 5) + 1
      by omega,
    parseValue.eq_def]
  simp only [skipWs_cons_of_not_ws '\x7b' _ (by decide)]
  simp [parseMembers_envelope e.typ e.sdp e.iceCandidates fuel rest hvt hvsd hvc,
    envelopeJson]

/-- Each candidate contributes at least one character to the encoded
array body. -/
theorem length_encodeElems_ge (cands : List String) :
    cands.length ≤ (encodeElems cands).length := by
  induction cands with
  | nil => simp [encodeElems]
  | cons c cs ih =>
    cases cs with
    | nil => simp [encodeElems, quoteStr]
    | cons c2 cs2 =>
      rw [show encodeElems (c :: c2 :: cs2) =
        quoteStr c ++ ',' :: encodeElems (c2 :: cs2) from rfl]
      simp only [List.length_append, List.length_cons, quoteStr] at *
      omega

/-- The encoded envelope is long enough to fund the parser. -/
theorem length_encodeEnvelope (e : Envelope) :
    e.iceCandidates.length + 6 ≤ 2 * (encodeEnvelope e).data.length := by
  have h1 := length_encodeElems_ge e.iceCandidates
  simp only [encodeEnvelope, quoteStr, List.length_cons, List.length_append]
  omega

/-- C5: decoding the encoded envelope (`JSON.parse` of
`JSON.stringify`) yields a JSON object with identical `type`, identical
`sdp` and the identical candidate list in the same order, and the
signaling decode path accordingly signals the same sdp and the same
candidates in order. -/
theorem C5_encode_decode_roundtrip (e : Envelope) (hv : e.Valid) :
    jsonParse (encodeEnvelope e) = some (envelopeJson e) ∧
    (envelopeJson e).getF "type" = some (.str e.typ) ∧
    (envelopeJson e).getF "sdp" = some (.str e.sdp) ∧
    (envelopeJson e).getF "iceCandidates" =
      some (.arr (e.iceCandidates.map .str)) ∧
    decodeSignal e.typ (encodeEnvelope e) =
      .ok { typ := e.typ, sdp := .str e.sdp,
            candidates := e.iceCandidates.map Json.str } := by
  have hparse : jsonParse (encodeEnvelope e) = some (envelopeJson e) := by
    have hlen := length_encodeEnvelope e
    obtain ⟨m, hm⟩ : ∃ m, 2 * (encodeEnvelope e).data.length + 2 =
        m + e.iceCandidates.length + 6 :=
      ⟨2 * (encodeEnvelope e).data.length + 2 - (e.iceCandidates.length + 6),
        by omega⟩
    have hpv := parseValue_envelope e m [] hv
    rw [List.append_nil] at hpv
    unfold jsonParse
    rw [hm, hpv]
    simp [skipWs]
  refine ⟨hparse, ?_, ?_, ?_, ?_⟩
  · simp [envelopeJson, Json.getF, List.lookup]
  · simp [envelopeJson, Json.getF, List.lookup]
  · simp [envelopeJson, Json.getF, List.lookup]
  · simp [decodeSignal, hparse, envelopeJson, Json.getF, List.lookup]

/-- Witness for C5 at a concrete offer envelope whose sdp has CRLF line
breaks and one gathered candidate. -/
theorem C5_witness :
    (Envelope.Valid
      ⟨"offer", "v=0\r\ns=-\r\n", ["candidate:1 1 UDP 2122 host"]⟩) ∧
    (jsonParse (encodeEnvelope
        ⟨"offer", "v=0\r\ns=-\r\n", ["candidate:1 1 UDP 2122 host"]⟩) =
      some (envelopeJson
        ⟨"offer", "v=0\r\ns=-\r\n", ["candidate:1 1 UDP 2122 host"]⟩) ∧
    (envelopeJson
        ⟨"offer", "v=0\r\ns=-\r\n", ["candidate:1 1 UDP 2122 host"]⟩).getF "type" =
      some (.str "offer") ∧
    (envelopeJson
        ⟨"offer", "v=0\r\ns=-\r\n", ["candidate:1 1 UDP 2122 host"]⟩).getF "sdp" =
      some (.str "v=0\r\ns=-\r\n") ∧
    (envelopeJson
        ⟨"offer", "v=0\r\ns=-\r\n", ["candidate:1 1 UDP 2122 host"]⟩).getF
        "iceCandidates" =
      some (.arr (["candidate:1 1 UDP 2122 host"].map .str)) ∧
    decodeSignal "offer" (encodeEnvelope
        ⟨"offer", "v=0\r\ns=-\r\n", ["candidate:1 1 UDP 2122 host"]⟩) =
      .ok { typ := "offer", sdp := .str "v=0\r\ns=-\r\n",
            candidates := ["candidate:1 1 UDP 2122 host"].map Json.str }) :=
  ⟨by decide,
    C5_encode_decode_roundtrip
      ⟨"offer", "v=0\r\ns=-\r\n", ["candidate:1 1 UDP 2122 host"]⟩ (by decide)⟩

/-- C6: for every input string that is not valid JSON, both signaling
decode paths (`initAsGuest` with inferred type "offer", `processAnswer`
with inferred type "answer") return the raw-string fallback — the whole
input as the session description, no candidates — and, the decode being
a total function whose parse-failure branch is `.ok`, nothing is thrown
across the public boundary. -/
theorem C6_malformed_input_falls_back (s : String) (h : jsonParse s = none) :
    decodeSignal "offer" s =
      .ok { typ := "offer", sdp := .str s, candidates := [] } ∧
    decodeSignal "answer" s =
      .ok { typ := "answer", sdp := .str s, candidates := [] } := by
  constructor <;> simp [decodeSignal, h]

/-- Witness for C6 on the malformed paste "not json at all". -/
theorem C6_witness :
    jsonParse "not json at all" = none ∧
    (decodeSignal "offer" "not json at all" =
      .ok { typ := "offer", sdp := .str "not json at all", candidates := [] } ∧
    decodeSignal "answer" "not json at all" =
      .ok { typ := "answer", sdp := .str "not json at all", candidates := [] }) :=
  ⟨by rfl, C6_malformed_input_falls_back "not json at all" (by rfl)⟩

end CodecTheorems

section ConnectionTheorems

/-- C4 (counterexample): a concrete inbound ping IS delivered to the
application's message handler — the data callback replies with a pong
and then passes the parsed ping to `onMessage`, so the message reaches
the router (whose own 'ping' case is a no-op). -/
theorem C4_ping_reaches_router :
    (handleData 12 pingRawC4).delivered ≠ none ∧
    handleData 12 pingRawC4 = ⟨[pongMsg 12 (.num 5)], none, some pingMsgC4⟩ := by
  constructor
  · intro h
    rw [show handleData 12 pingRawC4 =
      ⟨[pongMsg 12 (.num 5)], none, some pingMsgC4⟩ from rfl] at h
    simp at h
  · rfl

/-- C4 (amended): ping and pong are handled inside the connection
manager — a ping is answered with exactly one pong echoing its
timestamp, a pong's round-trip time is computed for the latency
display — but every successfully parsed message, ping and pong
included, is then also delivered to the router's `onMessage` handler;
every other type is delivered with no internal action. -/
theorem C4_pingpong_handled_and_delivered (now : ℚ) (raw : String) (msg : Json)
    (tag : String) (hp : jsonParse raw = some msg)
    (ht : msg.getF "type" = some (.str tag)) :
    (tag ≠ "ping" → tag ≠ "pong" →
      handleData now raw = ⟨[], none, some msg⟩) ∧
    (tag = "ping" → ∀ d ts, msg.getF "data" = some d →
      d.getF "timestamp" = some ts →
      handleData now raw = ⟨[pongMsg now ts], none, some msg⟩) ∧
    (tag = "pong" → ∀ d (q : ℚ), msg.getF "data" = some d →
      d.getF "pingTimestamp" = some (.num q) →
      handleData now raw = ⟨[], some (now - q), some msg⟩) := by
  refine ⟨fun h1 h2 => ?_, fun h1 d ts hd hts => ?_, fun h1 d q hd hq => ?_⟩
  · simp [handleData, hp, ht, h1, h2]
  · subst h1
    simp [handleData, hp, ht, hd, hts]
  · subst h1
    simp [handleData, hp, ht, hd, hq]

/-- Witness for C4's amended theorem at the concrete ping. -/
theorem C4_witness :
    jsonParse pingRawC4 = some pingMsgC4 ∧
    pingMsgC4.getF "type" = some (.str "ping") ∧
    (("ping" ≠ "ping" → "ping" ≠ "pong" →
      handleData 12 pingRawC4 = ⟨[], none, some pingMsgC4⟩) ∧
    ("ping" = "ping" → ∀ d ts, pingMsgC4.getF "data" = some d →
      d.getF "timestamp" = some ts →
      handleData 12 pingRawC4 = ⟨[pongMsg 12 ts], none, some pingMsgC4⟩) ∧
    ("ping" = "pong" → ∀ d (q : ℚ), pingMsgC4.getF "data" = some d →
      d.getF "pingTimestamp" = some (.num q) →
      handleData 12 pingRawC4 = ⟨[], some (12 - q), some pingMsgC4⟩)) :=
  ⟨by rfl, by rfl,
    C4_pingpong_handled_and_delivered 12 pingRawC4 pingMsgC4 "ping" (by rfl) (by rfl)⟩

/-- A state with a cleared interval and destroyed peer stays that way
and sends nothing on any event. -/
theorem connStep_dead (s : ConnState) (e : ConnEvent)
    (h1 : s.pingActive = false) (h2 : s.peerAlive = false) :
    (connStep s e).1.pingActive = false ∧ (connStep s e).1.peerAlive = false ∧
    (connStep s e).2 = [] := by
  cases e <;> simp [connStep, h1, h2]

/-- No run from a cleared-and-destroyed state ever sends a message. -/
theorem connRun_dead (evs : List ConnEvent) : ∀ s : ConnState,
    s.pingActive = false → s.peerAlive = false → (connRun s evs).2 = [] := by
  induction evs with
  | nil =>
    intro s _ _
    simp [connRun]
  | cons e es ih =>
    intro s h1 h2
    obtain ⟨g1, g2, g3⟩ := connStep_dead s e h1 h2
    simp [connRun, g3, ih _ g1 g2]

/-- C8: after `disconnect()` no further ping is ever sent — the
keepalive interval is actually cleared by `disconnect` (`_pingInterval`
becomes null, not merely ignored), the destroyed peer can never
re-install it, so a run of any subsequent events emits no message at
all; and independently, an interval tick that observes the connection
no longer connected self-cancels instead of sending. -/
theorem C8_no_ping_after_disconnect (s s2 : ConnState) (evs : List ConnEvent) :
    (connStep s .disconnectCall).1.pingActive = false ∧
    (connStep s .disconnectCall).2 = [] ∧
    (connRun (connStep s .disconnectCall).1 evs).2 = [] ∧
    (s2.pingActive = true → s2.isConnected = false →
      connStep s2 .tick = ({ s2 with pingActive := false }, [])) := by
  have hd1 : (connStep s .disconnectCall).1.pingActive = false := by
    by_cases h : s.peerAlive <;> simp [connStep, h]
  have hd2 : (connStep s .disconnectCall).1.peerAlive = false := by
    by_cases h : s.peerAlive <;> simp [connStep, h]
  refine ⟨hd1, ?_, connRun_dead evs _ hd1 hd2, fun hp hc => by simp [connStep, hp, hc]⟩
  by_cases h : s.peerAlive <;> simp [connStep, h]

/-- Witness for C8 at a connected state and a post-disconnect event
run including a stale connect event and timer ticks. -/
theorem C8_witness :
    ((connStep ⟨true, true, true, .connected⟩ .disconnectCall).1.pingActive = false ∧
    (connStep ⟨true, true, true, .connected⟩ .disconnectCall).2 = [] ∧
    (connRun (connStep ⟨true, true, true, .connected⟩ .disconnectCall).1
      [.tick, .peerConnect, .tick, .peerError true, .tick]).2 = [] ∧
    ((⟨false, true, true, .disconnected⟩ : ConnState).pingActive = true →
      (⟨false, true, true, .disconnected⟩ : ConnState).isConnected = false →
      connStep ⟨false, true, true, .disconnected⟩ .tick =
        ({ (⟨false, true, true, .disconnected⟩ : ConnState) with
            pingActive := false }, []))) :=
  C8_no_ping_after_disconnect ⟨true, true, true, .connected⟩
    ⟨false, true, true, .disconnected⟩ [.tick, .peerConnect, .tick, .peerError true, .tick]

end ConnectionTheorems

end MultiPong
